import Mathlib

/-!
Verification of the OSS audio backend (`cubeb_oss.c`) against its
natural-language specification.

The development shallowly embeds the parts of the source the claims are
about:

* the block-size (`nfr`) derivation of `oss_stream_init` (lines 729-830);
* the sample converters `oss_float_to_linear32`, `oss_linear32_to_float`
  and `oss_linear16_set_vol`, with C floats abstracted as rationals and
  the float-to-integer cast as truncation toward zero;
* the control state of `oss_stream_start` / `oss_stream_stop`;
* the event order of `oss_stream_destroy`;
* the resource/return-code flow of `oss_stream_init`;
* the I/O thread routine `oss_io_routine`, with the device modelled by an
  explicit trace of per-call `write`/`read` results.

Machine integers appear only where the source computes with them: frame
counts and byte counts are natural numbers (they are non-negative sizes in
the source), 32-bit sample values are integers clamped or wrapped
explicitly.
-/

/-! ## Return codes (cubeb.h) -/

def CUBEB_OK : Int := 0

def CUBEB_ERROR : Int := -1

def CUBEB_ERROR_INVALID_FORMAT : Int := -2

def CUBEB_ERROR_NOT_SUPPORTED : Int := -4

def CUBEB_ERROR_DEVICE_UNAVAILABLE : Int := -5

/-- OSS_DEFAULT_NFRAMES from cubeb_oss.c line 47. -/
def OSS_DEFAULT_NFRAMES : Nat := 32

/-! ## Block-size derivation (oss_stream_init, lines 729, 741, 805-830)

`oss_stream_init` starts with `playnfr = 1`, `recnfr = 1` and
`s->nfr = OSS_DEFAULT_NFRAMES`.  For each open direction it queries the
device queue capacity (`SNDCTL_DSP_GETOSPACE` / `GETISPACE`); on success it
computes `nfr = fragstotal * fragsize / frame_size` and raises the
direction's candidate to it when larger.  Finally `s->nfr` is overwritten
by the minimum of the two candidates when both directions are open, by the
single open direction's candidate otherwise, and keeps its default only
when neither direction is open. -/

/-- Capacity in frames computed from a successful queue-depth query
(line 808 / 819): `bi.fragstotal * bi.fragsize / frame_size`. -/
def queried_capacity (fragstotal fragsize frame_size : Nat) : Nat :=
  fragstotal * fragsize / frame_size

/-- The `if (playnfr < nfr) playnfr = nfr;` update (lines 809-811 and
820-822); `none` models a failed (unsupported) ioctl, in which case the
candidate is left alone. -/
def updateNfr (cur : Nat) (query : Option Nat) : Nat :=
  match query with
  | none => cur
  | some nfr => if cur < nfr then nfr else cur

/-- The overall `nfr` derivation of `oss_stream_init`: `playQ` / `recQ` is
`some c` when the queue-depth query of an open direction succeeds reporting
a capacity of `c` frames, `none` when the ioctl fails; a direction that is
not open performs no query. -/
def derive_nfr (playActive recActive : Bool) (playQ recQ : Option Nat) : Nat :=
  let playnfr := if playActive then updateNfr 1 playQ else 1
  let recnfr := if recActive then updateNfr 1 recQ else 1
  if playActive && recActive then min playnfr recnfr
  else if playActive then playnfr
  else if recActive then recnfr
  else OSS_DEFAULT_NFRAMES

/-- Spec-side reading of a single direction's capacity: the queried value
floored at 1 frame, one frame when the query is unsupported. -/
def capacity_floor (query : Option Nat) : Nat :=
  max 1 (query.getD 0)

/-! ## Sample converters (lines 566-604)

C `float` samples are abstracted as rationals and the C cast
`(int64_t)f` as truncation toward zero. -/

/-- Truncation toward zero of a rational, the C float-to-integer
conversion. -/
def cTrunc (q : ℚ) : Int :=
  q.num / (q.den : Int)

/-- One sample of `oss_float_to_linear32` (lines 573-579): scale by the
volume and by `0x80000000`, convert to `int64_t`, clamp below at
`-INT32_MAX` then above at `INT32_MAX`. -/
def oss_float_to_linear32_sample (vol s : ℚ) : Int :=
  let f : Int := cTrunc (s * vol * (2 ^ 31 : ℚ))
  if f < -(2 ^ 31 - 1) then -(2 ^ 31 - 1)
  else if f > 2 ^ 31 - 1 then 2 ^ 31 - 1
  else f

/-- In-place `oss_float_to_linear32` (lines 566-581): the output pointer
walks over the same buffer as the input pointer, converting exactly
`sample_count` leading samples; entries past `sample_count` keep their
floating contents (`Sum.inr`). -/
def oss_float_to_linear32 : List ℚ → Nat → ℚ → List (Int ⊕ ℚ)
  | [], _, _ => []
  | s :: rest, 0, vol => Sum.inr s :: oss_float_to_linear32 rest 0 vol
  | s :: rest, n + 1, vol =>
      Sum.inl (oss_float_to_linear32_sample vol s) ::
        oss_float_to_linear32 rest n vol

/-- Spec-side sample conversion, following the claim's words: scale by the
volume and the full-scale magnitude `2 ^ 31`, then clamp symmetrically into
the representable range, saturating at the symmetric bounds
`±(2 ^ 31 - 1)`. -/
def float_to_linear32_spec_sample (vol s : ℚ) : Int :=
  max (-(2 ^ 31 - 1)) (min (2 ^ 31 - 1) (cTrunc (s * vol * (2 ^ 31 : ℚ))))

/-- In-place `oss_linear32_to_float` (lines 583-593): each of the leading
`sample_count` 32-bit samples becomes `(1.0 / 0x80000000) * sample`; no
volume is involved. -/
def oss_linear32_to_float : List Int → Nat → List (ℚ ⊕ Int)
  | [], _ => []
  | x :: rest, 0 => Sum.inr x :: oss_linear32_to_float rest 0
  | x :: rest, n + 1 =>
      Sum.inl ((1 / 2 ^ 31 : ℚ) * (x : ℚ)) :: oss_linear32_to_float rest n

/-- Wrap an integer to the value stored in an `int16_t`. -/
def toInt16 (v : Int) : Int :=
  (v + 2 ^ 15) % 2 ^ 16 - 2 ^ 15

/-- In-place `oss_linear16_set_vol` (lines 595-604):
`multiplier = vol * 0x8000` truncated to an integer, then each of the
leading `sample_count` samples becomes `(buf[i] * multiplier) >> 15`
(arithmetic shift, i.e. floor division by `2 ^ 15`) stored back into an
`int16_t`. -/
def oss_linear16_set_vol (buf : List Int) (sample_count : Nat) (vol : ℚ) :
    List Int :=
  let multiplier : Int := cTrunc (vol * (2 ^ 15 : ℚ))
  go multiplier buf sample_count
where
  go (multiplier : Int) : List Int → Nat → List Int
    | [], _ => []
    | x :: rest, 0 => x :: go multiplier rest 0
    | x :: rest, n + 1 =>
        toInt16 (Int.fdiv (x * multiplier) (2 ^ 15)) :: go multiplier rest n

/-! ## Stream control state (oss_stream_start / oss_stream_stop,
lines 536-548 and 854-863) -/

/-- The mutex-protected control state of a stream that matters to start
and stop: the `running` flag, plus whether a live (spawned, not yet
joined) I/O thread exists. -/
structure RunState where
  running : Bool
  threadLive : Bool
deriving DecidableEq, Repr

/-- Result of `oss_stream_stop`: return code, resulting control state, and
whether `pthread_join` was invoked. -/
structure StopResult where
  ret : Int
  st : RunState
  joinCalled : Bool
deriving DecidableEq, Repr

/-- `oss_stream_stop` (lines 536-548): under the lock, if running, clear
the flag and join the thread; otherwise just release the lock. -/
def oss_stream_stop (s : RunState) : StopResult :=
  if s.running then
    ⟨CUBEB_OK, { running := false, threadLive := false }, true⟩
  else
    ⟨CUBEB_OK, s, false⟩

/-- `oss_stream_start` (lines 854-863): set `running = true`, then spawn
the I/O thread; `spawnOk = false` models `pthread_create` failing, in
which case `CUBEB_ERROR` is returned — with `running` left as the code
leaves it. -/
def oss_stream_start (s : RunState) (spawnOk : Bool) : Int × RunState :=
  let s1 : RunState := { s with running := true }
  if spawnOk then (CUBEB_OK, { s1 with threadLive := true })
  else (CUBEB_ERROR, s1)

/-! ## Destruction order (oss_stream_destroy, lines 550-564) -/

/-- Observable events of stream destruction. -/
inductive DtorEvent where
  | mutexDestroy
  | mutexLock
  | mutexUnlock
  | joinThread
  | closePlayFd
  | closeRecFd
  | freePlayBuf
  | freeRecBuf
  | freeStream
deriving DecidableEq, Repr

/-- Event trace of `oss_stream_stop` (lines 536-548): lock, clear-and-join
when running, unlock otherwise. -/
def oss_stream_stop_trace (running : Bool) : List DtorEvent :=
  if running then [.mutexLock, .mutexUnlock, .joinThread]
  else [.mutexLock, .mutexUnlock]

/-- Event trace of `oss_stream_destroy` (lines 550-564), in source order:
`pthread_mutex_destroy` first, then `oss_stream_stop`, then closing each
open device handle, then freeing the buffers and the stream. -/
def oss_stream_destroy_trace (running playOpen recOpen : Bool) :
    List DtorEvent :=
  [DtorEvent.mutexDestroy] ++ oss_stream_stop_trace running ++
    (if playOpen then [DtorEvent.closePlayFd] else []) ++
    (if recOpen then [DtorEvent.closeRecFd] else []) ++
    [DtorEvent.freePlayBuf, DtorEvent.freeRecBuf, DtorEvent.freeStream]

/-! ## The I/O thread routine (oss_io_routine, lines 606-713)

The routine-level model tracks control flow, frame/byte accounting and
state-callback invocations; the buffer contents handled by the converters
are modelled separately (see `iterPrePhase`).  The device is modelled by a
trace of per-call results: `IoRes.ok n` is a `write`/`read` returning `n`
bytes, `IoRes.err` a negative return. -/

/-- The loop states of cubeb: the I/O routine starts in `started` and ends
in one of `stopped`, `drained`, `error`. -/
inductive CState where
  | started
  | stopped
  | drained
  | error
deriving DecidableEq, Repr

/-- Result of one device call. -/
inductive IoRes where
  | ok (n : Nat)
  | err
deriving DecidableEq, Repr

/-- The local variables of one iteration's inner retry loop
(lines 674-705): pending frames to write/read, buffer offsets in bytes,
the stream's `frames_written` counter, and whether a device call failed
(`state = CUBEB_STATE_ERROR`). -/
structure IoLoopState where
  toWrite : Nat
  toRead : Nat
  writeOfs : Nat
  readOfs : Nat
  framesWritten : Nat
  err : Bool
deriving DecidableEq, Repr

/-- The read half of one retry-loop round (lines 695-704). -/
def readPart (rfs : Nat) (st : IoLoopState) (r : IoRes) : IoLoopState :=
  if 0 < st.toRead then
    match r with
    | .err => { st with err := true }
    | .ok n =>
        { st with toRead := st.toRead - n / rfs, readOfs := st.readOfs + n }
  else st

/-- One round of the retry loop (lines 678-705): the write half
(lines 682-694) — on error the loop breaks at once, skipping the read —
followed by the read half.  A successful write of `n` bytes adds
`n / frame_size` frames to the `frames_written` counter under the lock. -/
def ioRound (pfs rfs : Nat) (st : IoLoopState) (w r : IoRes) : IoLoopState :=
  if 0 < st.toWrite then
    match w with
    | .err => { st with err := true }
    | .ok n =>
        readPart rfs
          { st with
              framesWritten := st.framesWritten + n / pfs,
              toWrite := st.toWrite - n / pfs,
              writeOfs := st.writeOfs + n } r
  else readPart rfs st r

/-- The retry loop `while (to_write > 0 || to_read > 0)` (line 678),
consuming one pair of device results per round; `none` means the supplied
device trace ran out while the loop still had work to do (the loop is
blocked in device I/O with no further modelled responses). -/
def ioLoop (pfs rfs : Nat) : List (IoRes × IoRes) → IoLoopState →
    Option IoLoopState
  | [], st => if 0 < st.toWrite ∨ 0 < st.toRead then none else some st
  | (w, r) :: rest, st =>
      if 0 < st.toWrite ∨ 0 < st.toRead then
        let st2 := ioRound pfs rfs st w r
        if st2.err then some st2 else ioLoop pfs rfs rest st2
      else some st

/-- Well-formed device responses relative to the loop state they answer:
a successful transfer moves a whole number of frames and at most the
requested byte count.  (POSIX guarantees the bound; whole-frame transfers
are the spec's frame-size invariant for device I/O.) -/
def resOK (fs pending : Nat) (x : IoRes) : Bool :=
  match x with
  | .err => true
  | .ok n => decide (n % fs = 0) && decide (n ≤ pending * fs)

/-- `traceOK pfs rfs st trace` holds when every device response in `trace`
is well formed for the loop state it answers. -/
def traceOK (pfs rfs : Nat) : IoLoopState → List (IoRes × IoRes) → Bool
  | _, [] => true
  | st, (w, r) :: rest =>
      (decide (st.toWrite = 0) || resOK pfs st.toWrite w) &&
      ((decide (st.toRead = 0) || resOK rfs st.toRead r) &&
        traceOK pfs rfs (ioRound pfs rfs st w r) rest)

/-- Static stream configuration seen by the I/O routine: which directions
are open, the block size `nfr`, and each direction's frame size. -/
structure StreamCfg where
  playActive : Bool
  recActive : Bool
  nfr : Nat
  pfs : Nat
  rfs : Nat
deriving DecidableEq, Repr

/-- Per-iteration inputs from the environment: the `running` flag the
iteration reads under the lock, the data callback's return (`none` for
`CUBEB_ERROR`), and the device-response trace for the inner retry loop. -/
structure IterInput where
  running : Bool
  cbRet : Option Nat
  trace : List (IoRes × IoRes)

/-- The retry loop's starting state for an iteration whose callback
produced `k` frames (lines 674-677): `to_write = cb_nfr` when playback is
open, `to_read = nfr` when record is open, offsets zero. -/
def initialIo (cfg : StreamCfg) (k fw : Nat) : IoLoopState :=
  ⟨if cfg.playActive then k else 0, if cfg.recActive then cfg.nfr else 0,
    0, 0, fw, false⟩

/-- Outcome of one iteration of the outer `while` loop. -/
inductive IterStep where
  | exit (st : CState) (fw writeBytes readBytes : Nat)
  | next (fw : Nat)
  | stuck
deriving DecidableEq, Repr

/-- One iteration of the outer loop (lines 619-710), in source order:
check `running` under the lock; stop when no direction is open; invoke the
callback (an error sentinel aborts to `error`); a short playback block
marks a drain while a short record-only block stops at once without any
device I/O; run the retry loop; a marked drain then ends the loop in
`drained` unless a device call failed. -/
def ioIterate (cfg : StreamCfg) (fw : Nat) (it : IterInput) : IterStep :=
  if !it.running then .exit .stopped fw 0 0
  else if !cfg.playActive && !cfg.recActive then .exit .stopped fw 0 0
  else
    match it.cbRet with
    | none => .exit .error fw 0 0
    | some k =>
        if k < cfg.nfr && !cfg.playActive then .exit .stopped fw 0 0
        else
          match ioLoop cfg.pfs cfg.rfs it.trace (initialIo cfg k fw) with
          | none => .stuck
          | some st' =>
              if st'.err then .exit .error st'.framesWritten st'.writeOfs st'.readOfs
              else if k < cfg.nfr then
                .exit .drained st'.framesWritten st'.writeOfs st'.readOfs
              else .next st'.framesWritten

/-- The outer loop, one `IterInput` per iteration; returns the final
state, the frames-written counter, and the exiting iteration's
write/read byte counts.  `none` when the loop neither exits within the
supplied iterations nor completes its inner retry loop. -/
def ioLoopSteps (cfg : StreamCfg) : Nat → List IterInput →
    Option (CState × Nat × Nat × Nat)
  | _, [] => none
  | fw, it :: rest =>
      match ioIterate cfg fw it with
      | .exit st fw' w r => some (st, fw', w, r)
      | .next fw' => ioLoopSteps cfg fw' rest
      | .stuck => none

/-- `oss_io_routine` (lines 606-713): one `STARTED` state-callback
invocation on entry, the loop, then exactly one state-callback invocation
with the final state.  The last component lists the state-callback
invocations in order. -/
def oss_io_routine (cfg : StreamCfg) (fw : Nat) (iters : List IterInput) :
    Option (CState × Nat × Nat × Nat × List CState) :=
  (ioLoopSteps cfg fw iters).map
    (fun x => (x.1, x.2.1, x.2.2.1, x.2.2.2, [CState.started, x.1]))

/-! ## Buffer contents of one iteration (lines 636-658)

What the data callback and the device see, as a function of the raw
buffers: the record buffer is converted fixed-to-floating before the
callback when the record direction carries floating samples; after the
callback the playback buffer's produced samples are converted with the
volume that was read under the lock. -/

/-- Buffers produced by the pre-I/O phase of one iteration: the record
buffer as passed to the data callback, and (when playback is open) the
playback buffer as sent to the device after conversion — floating streams
through `oss_float_to_linear32`, 16-bit streams through
`oss_linear16_set_vol`. -/
structure IterBufs where
  cbInput : List (ℚ ⊕ Int)
  playConverted : Option (List (Int ⊕ ℚ) ⊕ List Int)

/-- The pre-I/O phase of one iteration (lines 636-658): fixed-to-floating
conversion of `channels * nfr` record samples when the record stream is
floating (line 636-639), the data callback, then volume-applying
conversion of `channels * cb_nfr` playback samples (lines 645-658). -/
def iterPrePhase (recActive recFloating playActive playFloating : Bool)
    (recChans playChans nfr k : Nat) (vol : ℚ)
    (recBuf : List Int) (playBufF : List ℚ) (playBuf16 : List Int) :
    IterBufs :=
  { cbInput :=
      if recActive && recFloating then
        oss_linear32_to_float recBuf (recChans * nfr)
      else recBuf.map Sum.inr,
    playConverted :=
      if playActive then
        some (if playFloating then
            Sum.inl (oss_float_to_linear32 playBufF (playChans * k) vol)
          else
            Sum.inr (oss_linear16_set_vol playBuf16 (playChans * k) vol))
      else none }

/-! ## Stream construction (oss_stream_init, lines 715-852)

The construction model tracks the return-code flow and the resources
acquired and released.  Branch outcomes of the environment (allocation,
`open`, the negotiation ioctls, `pthread_mutex_init`, queue-depth queries)
are inputs.  On any `goto error` path with an allocated stream the code
calls `oss_stream_destroy`, which releases every acquired resource, so on
those paths `released = acquired`. -/

/-- Sample-format tags relevant to `oss_copy_params` (lines 507-523). -/
inductive SampleFormat where
  | s16le
  | s16be
  | float32ne
  | other
deriving DecidableEq, Repr

/-- The slice of `cubeb_stream_params` the construction branches on. -/
structure OssParams where
  loopback : Bool
  format : SampleFormat
deriving DecidableEq, Repr

/-- Resources `oss_stream_init` can acquire. -/
inductive Res where
  | streamMem
  | recFd
  | playFd
  | mutex
  | playBuf
  | recBuf
deriving DecidableEq, Repr

/-- Environment outcomes for one run of `oss_stream_init`. -/
structure InitEnv where
  callocStreamOk : Bool
  inParams : Option OssParams
  outParams : Option OssParams
  recOpenOk : Bool
  playOpenOk : Bool
  recFmtOk : Bool
  recChanOk : Bool
  recRateOk : Bool
  playFmtOk : Bool
  playChanOk : Bool
  playRateOk : Bool
  mutexInitOk : Bool
  playQ : Option Nat
  recQ : Option Nat
  playBufOk : Bool
  recBufOk : Bool

/-- Result of `oss_stream_init`: the returned code, whether `*stream` was
set, the stream's block size when set, and the resources acquired and
released during the run. -/
structure InitResult where
  ret : Int
  streamSet : Bool
  nfr : Nat
  acquired : List Res
  released : List Res
deriving DecidableEq, Repr

/-- `oss_copy_params` (lines 501-534): translate the format tag — an
unknown tag fails with `CUBEB_ERROR_INVALID_FORMAT` before any ioctl —
then push format, channels and rate, each ioctl failure yielding
`CUBEB_ERROR`. -/
def oss_copy_params (fmt : SampleFormat) (fmtOk chanOk rateOk : Bool) : Int :=
  match fmt with
  | .other => CUBEB_ERROR_INVALID_FORMAT
  | _ =>
      if !fmtOk then CUBEB_ERROR
      else if !chanOk then CUBEB_ERROR
      else if !rateOk then CUBEB_ERROR
      else CUBEB_OK

/-- A `goto error` exit with an allocated stream (lines 847-851):
`oss_stream_destroy` releases everything acquired, `*stream` is not set,
and the current value of `ret` is returned. -/
def initFail (ret : Int) (acq : List Res) : InitResult :=
  ⟨ret, false, 0, acq, acq⟩

/-- Lines 794-846: mutex creation, block-size derivation and buffer
allocation, after both directions have been opened and negotiated.
On the mutex branch the source assigns no value to `ret` before
`goto error`, so the `CUBEB_OK` it still holds is what gets returned —
modelled faithfully here. -/
def init_after_open (e : InitEnv) (recOpen playOpen : Bool)
    (acq : List Res) : InitResult :=
  if !e.mutexInitOk then initFail CUBEB_OK acq
  else
    let acq1 := acq ++ [Res.mutex]
    let nfr := derive_nfr playOpen recOpen e.playQ e.recQ
    if playOpen && !e.playBufOk then initFail CUBEB_ERROR acq1
    else
      let acq2 := if playOpen then acq1 ++ [Res.playBuf] else acq1
      if recOpen && !e.recBufOk then initFail CUBEB_ERROR acq2
      else
        let acq3 := if recOpen then acq2 ++ [Res.recBuf] else acq2
        ⟨CUBEB_OK, true, nfr, acq3, []⟩

/-- Lines 773-793: the output direction — loopback rejection, opening the
playback device write-only, and parameter negotiation. -/
def init_out_side (e : InitEnv) (recOpen : Bool) (acq : List Res) :
    InitResult :=
  match e.outParams with
  | some p =>
      if p.loopback then initFail CUBEB_ERROR_NOT_SUPPORTED acq
      else if !e.playOpenOk then
        initFail CUBEB_ERROR_DEVICE_UNAVAILABLE acq
      else
        let acq1 := acq ++ [Res.playFd]
        let r := oss_copy_params p.format e.playFmtOk e.playChanOk
          e.playRateOk
        if r ≠ CUBEB_OK then initFail r acq1
        else init_after_open e recOpen true acq1
  | none => init_after_open e recOpen false acq

/-- `oss_stream_init` (lines 715-852): allocate the stream, process the
input direction (loopback rejection, open read-only, negotiate), then the
output direction, then mutex, block size and buffers. -/
def oss_stream_init (e : InitEnv) : InitResult :=
  if !e.callocStreamOk then ⟨CUBEB_ERROR, false, 0, [], []⟩
  else
    match e.inParams with
    | some p =>
        if p.loopback then
          initFail CUBEB_ERROR_NOT_SUPPORTED [Res.streamMem]
        else if !e.recOpenOk then
          initFail CUBEB_ERROR_DEVICE_UNAVAILABLE [Res.streamMem]
        else
          let r := oss_copy_params p.format e.recFmtOk e.recChanOk
            e.recRateOk
          if r ≠ CUBEB_OK then initFail r [Res.streamMem, Res.recFd]
          else init_out_side e true [Res.streamMem, Res.recFd]
    | none => init_out_side e false [Res.streamMem]

/-! ## Theorems -/

/-- A single direction's candidate, starting from 1, equals the queried
capacity floored at one frame. -/
theorem updateNfr_one (q : Option Nat) : updateNfr 1 q = capacity_floor q := by
  cases q with
  | none => simp [updateNfr, capacity_floor]
  | some c =>
      simp only [updateNfr, capacity_floor, Option.getD_some]
      split <;> omega

/-- C1 counterexample: for a playback-only stream whose queue-depth query
is unsupported, the working block size is 1 frame, not the fixed default
of 32 frames the claim promises. -/
theorem c1_counterexample :
    derive_nfr true false none none = 1 ∧
    derive_nfr true false none none ≠ OSS_DEFAULT_NFRAMES := by
  decide

/-- C1 (amended): the working block size is the minimum of the two
directions' capacities when both are active and the single active
direction's capacity otherwise, where a direction's capacity is the
queried queue depth in frames floored at 1 frame — with 1 frame (not 32)
taken when the query is unsupported or reports zero; the fixed default of
32 frames remains only when no direction is active. -/
theorem c1_block_size (playQ recQ : Option Nat) :
    derive_nfr true true playQ recQ =
      min (capacity_floor playQ) (capacity_floor recQ) ∧
    derive_nfr true false playQ recQ = capacity_floor playQ ∧
    derive_nfr false true playQ recQ = capacity_floor recQ ∧
    derive_nfr false false playQ recQ = OSS_DEFAULT_NFRAMES := by
  refine ⟨?_, ?_, ?_, ?_⟩ <;> simp [derive_nfr, updateNfr_one]

/-- The source's clamp chain computes the spec's symmetric saturating
clamp. -/
theorem float_to_linear32_sample_eq (vol s : ℚ) :
    oss_float_to_linear32_sample vol s = float_to_linear32_spec_sample vol s := by
  unfold oss_float_to_linear32_sample float_to_linear32_spec_sample
  rw [max_def, min_def]
  dsimp only
  split_ifs <;> omega

/-- C9: the floating-to-fixed playback converter maps each of the first
`sample_count` samples to the sample scaled by the volume and the
full-scale magnitude `2 ^ 31`, clamped symmetrically into the
representable range saturating at `±(2 ^ 31 - 1)`, and leaves samples
beyond `sample_count` unchanged; every converted sample lies within the
symmetric bounds (saturation, no wrap-around). -/
theorem c9_float_to_linear32_clamp (buf : List ℚ) (n : Nat) (vol : ℚ) :
    oss_float_to_linear32 buf n vol =
      (buf.take n).map (fun s => Sum.inl (float_to_linear32_spec_sample vol s))
        ++ (buf.drop n).map Sum.inr ∧
    ∀ q : ℚ, -(2 ^ 31 - 1) ≤ float_to_linear32_spec_sample vol q ∧
      float_to_linear32_spec_sample vol q ≤ 2 ^ 31 - 1 := by
  constructor
  · induction buf generalizing n with
    | nil => simp [oss_float_to_linear32]
    | cons s rest ih =>
        cases n with
        | zero => simp [oss_float_to_linear32, ih 0]
        | succ m =>
            simp [oss_float_to_linear32, float_to_linear32_sample_eq, ih m]
  · intro q
    unfold float_to_linear32_spec_sample
    exact ⟨le_max_left _ _, max_le (by norm_num) (min_le_left _ _)⟩

/-- C10: the record samples handed to the data callback do not depend on
the stream volume — two iterations identical but for the volume produce
the same callback input buffer (the volume reaches only the playback
conversion path). -/
theorem c10_record_volume_independent
    (recActive recFloating playActive playFloating : Bool)
    (recChans playChans nfr k : Nat) (vol1 vol2 : ℚ)
    (recBuf : List Int) (playBufF : List ℚ) (playBuf16 : List Int) :
    (iterPrePhase recActive recFloating playActive playFloating recChans
        playChans nfr k vol1 recBuf playBufF playBuf16).cbInput =
      (iterPrePhase recActive recFloating playActive playFloating recChans
        playChans nfr k vol2 recBuf playBufF playBuf16).cbInput := rfl

/-- C5 (code bug): when thread creation fails, `oss_stream_start` does
return the generic error, but it leaves `running = true`, so the stream is
not "as if start had never been called": a subsequent stop finds the flag
set, and invokes `pthread_join` on a thread that was never created. -/
theorem c5_start_fail_bug :
    oss_stream_start ⟨false, false⟩ false = (CUBEB_ERROR, ⟨true, false⟩) ∧
    (oss_stream_start ⟨false, false⟩ false).2.running = true ∧
    (oss_stream_stop (oss_stream_start ⟨false, false⟩ false).2).joinCalled
      = true := by
  decide

/-- C8: stopping a stream whose running flag is false returns `CUBEB_OK`,
leaves the state untouched and joins nothing; and a second stop right
after any stop is such a no-op, so two stops have the same observable
effect as one. -/
theorem c8_stop_idempotent (s : RunState) :
    (s.running = false → oss_stream_stop s = ⟨CUBEB_OK, s, false⟩) ∧
    oss_stream_stop (oss_stream_stop s).st =
      ⟨CUBEB_OK, (oss_stream_stop s).st, false⟩ ∧
    (oss_stream_stop s).ret = CUBEB_OK := by
  rcases s with ⟨r, t⟩
  cases r <;> simp [oss_stream_stop]

/-- Witness for C8 at a concrete non-running stream. -/
theorem c8_stop_idempotent_witness :
    oss_stream_stop ⟨false, true⟩ = ⟨CUBEB_OK, ⟨false, true⟩, false⟩ :=
  (c8_stop_idempotent ⟨false, true⟩).1 rfl

/-- C4 (code bug): the destruction sequence of a running stream destroys
the stream's lock as its very first action — before `oss_stream_stop`
locks that same mutex and joins the I/O thread — so the join does not
precede the lock's destruction as the claim requires. -/
theorem c4_destroy_order_bug :
    oss_stream_destroy_trace true true true =
      [.mutexDestroy, .mutexLock, .mutexUnlock, .joinThread, .closePlayFd,
        .closeRecFd, .freePlayBuf, .freeRecBuf, .freeStream] ∧
    List.indexOf DtorEvent.mutexDestroy
        (oss_stream_destroy_trace true true true) <
      List.indexOf DtorEvent.joinThread
        (oss_stream_destroy_trace true true true) := by
  decide

/-- C3 (code bug): when everything succeeds up to `pthread_mutex_init`
and the mutex creation fails, the error path does release every acquired
resource and leaves `*stream` unset, but `ret` was never assigned on that
branch, so the function returns `CUBEB_OK` instead of a non-OK error
code. -/
theorem c3_mutex_fail_returns_ok :
    oss_stream_init
      { callocStreamOk := true, inParams := none,
        outParams := some ⟨false, .s16le⟩, recOpenOk := true,
        playOpenOk := true, recFmtOk := true, recChanOk := true,
        recRateOk := true, playFmtOk := true, playChanOk := true,
        playRateOk := true, mutexInitOk := false, playQ := some 256,
        recQ := none, playBufOk := true, recBufOk := true } =
      ⟨CUBEB_OK, false, 0, [Res.streamMem, Res.playFd],
        [Res.streamMem, Res.playFd]⟩ ∧
    CUBEB_OK = 0 := by
  constructor
  · rfl
  · rfl

/-- C6: a record-only stream whose callback produces fewer frames than the
block size transitions directly to STOPPED, performs no device I/O in that
iteration (zero bytes written and read), and the state callback reports
STOPPED once after the loop. -/
theorem c6_record_only_stop (cfg : StreamCfg) (fw k : Nat) (it : IterInput)
    (rest : List IterInput)
    (hplay : cfg.playActive = false) (hrec : cfg.recActive = true)
    (hrun : it.running = true) (hcb : it.cbRet = some k)
    (hk : k < cfg.nfr) :
    oss_io_routine cfg fw (it :: rest) =
      some (.stopped, fw, 0, 0, [.started, .stopped]) := by
  simp [oss_io_routine, ioLoopSteps, ioIterate, hplay, hrec, hrun, hcb, hk]

/-- Witness for C6 at a concrete record-only stream and short callback
return. -/
theorem c6_record_only_stop_witness :
    oss_io_routine ⟨false, true, 32, 4, 4⟩ 7 [⟨true, some 5, []⟩] =
      some (.stopped, 7, 0, 0, [.started, .stopped]) := by
  have h := c6_record_only_stop ⟨false, true, 32, 4, 4⟩ 7 5
    ⟨true, some 5, []⟩ [] rfl rfl rfl rfl (by decide)
  exact h

/-- Unfolding of `ioRound` for a successful write with pending frames. -/
theorem ioRound_ok (pfs rfs : Nat) (st : IoLoopState) (n : Nat) (r : IoRes)
    (h0 : 0 < st.toWrite) :
    ioRound pfs rfs st (IoRes.ok n) r =
      readPart rfs
        { st with
            framesWritten := st.framesWritten + n / pfs,
            toWrite := st.toWrite - n / pfs,
            writeOfs := st.writeOfs + n } r := by
  unfold ioRound
  rw [if_pos h0]

/-- Unfolding of `ioRound` when there is nothing left to write. -/
theorem ioRound_nowrite (pfs rfs : Nat) (st : IoLoopState) (w r : IoRes)
    (h0 : ¬ 0 < st.toWrite) :
    ioRound pfs rfs st w r = readPart rfs st r := by
  unfold ioRound
  rw [if_neg h0]

/-- Conservation of the read half of a round: on a well-formed,
non-erroring read, the write-side fields are untouched and
`readOfs + toRead * rfs` is preserved. -/
theorem readPart_inv (rfs : Nat) (hrfs : 0 < rfs) (st : IoLoopState)
    (r : IoRes) (hr : st.toRead = 0 ∨ resOK rfs st.toRead r = true)
    (herr : (readPart rfs st r).err = false) :
    st.err = false ∧
    (readPart rfs st r).toWrite = st.toWrite ∧
    (readPart rfs st r).writeOfs = st.writeOfs ∧
    (readPart rfs st r).framesWritten = st.framesWritten ∧
    (readPart rfs st r).readOfs + (readPart rfs st r).toRead * rfs =
      st.readOfs + st.toRead * rfs := by
  by_cases h0 : 0 < st.toRead
  · cases r with
    | err =>
        unfold readPart at herr
        rw [if_pos h0] at herr
        exact absurd herr (by simp)
    | ok n =>
        have hres : resOK rfs st.toRead (IoRes.ok n) = true := by
          rcases hr with h | h
          · omega
          · exact h
        simp only [resOK, Bool.and_eq_true, decide_eq_true_eq] at hres
        obtain ⟨hmod, hle⟩ := hres
        obtain ⟨d, hd⟩ := Nat.dvd_of_mod_eq_zero hmod
        have hdiv : n / rfs = d := by
          rw [hd]
          exact Nat.mul_div_cancel_left d hrfs
        have hdle : d ≤ st.toRead := by
          refine Nat.le_of_mul_le_mul_left ?_ hrfs
          calc rfs * d = n := hd.symm
            _ ≤ st.toRead * rfs := hle
            _ = rfs * st.toRead := Nat.mul_comm _ _
        unfold readPart at herr ⊢
        rw [if_pos h0] at herr ⊢
        dsimp only at herr ⊢
        refine ⟨herr, rfl, rfl, rfl, ?_⟩
        rw [hdiv, Nat.sub_mul]
        have h1 : d * rfs ≤ st.toRead * rfs := Nat.mul_le_mul_right rfs hdle
        have h2 : rfs * d = d * rfs := Nat.mul_comm _ _
        omega
  · unfold readPart at herr ⊢
    rw [if_neg h0] at herr ⊢
    exact ⟨herr, rfl, rfl, rfl, rfl⟩

/-- Conservation of one full round: on well-formed, non-erroring device
results, `writeOfs + toWrite * pfs`, `framesWritten + toWrite` and
`readOfs + toRead * rfs` are all preserved. -/
theorem ioRound_inv (pfs rfs : Nat) (hpfs : 0 < pfs) (hrfs : 0 < rfs)
    (st : IoLoopState) (w r : IoRes)
    (hw : st.toWrite = 0 ∨ resOK pfs st.toWrite w = true)
    (hr : st.toRead = 0 ∨ resOK rfs st.toRead r = true)
    (herr : (ioRound pfs rfs st w r).err = false) :
    st.err = false ∧
    (ioRound pfs rfs st w r).writeOfs +
        (ioRound pfs rfs st w r).toWrite * pfs =
      st.writeOfs + st.toWrite * pfs ∧
    (ioRound pfs rfs st w r).framesWritten +
        (ioRound pfs rfs st w r).toWrite =
      st.framesWritten + st.toWrite ∧
    (ioRound pfs rfs st w r).readOfs +
        (ioRound pfs rfs st w r).toRead * rfs =
      st.readOfs + st.toRead * rfs := by
  by_cases h0 : 0 < st.toWrite
  · cases w with
    | err =>
        unfold ioRound at herr
        rw [if_pos h0] at herr
        exact absurd herr (by simp)
    | ok n =>
        have hres : resOK pfs st.toWrite (IoRes.ok n) = true := by
          rcases hw with h | h
          · omega
          · exact h
        simp only [resOK, Bool.and_eq_true, decide_eq_true_eq] at hres
        obtain ⟨hmod, hle⟩ := hres
        obtain ⟨d, hd⟩ := Nat.dvd_of_mod_eq_zero hmod
        have hdiv : n / pfs = d := by
          rw [hd]
          exact Nat.mul_div_cancel_left d hpfs
        have hdle : d ≤ st.toWrite := by
          refine Nat.le_of_mul_le_mul_left ?_ hpfs
          calc pfs * d = n := hd.symm
            _ ≤ st.toWrite * pfs := hle
            _ = pfs * st.toWrite := Nat.mul_comm _ _
        rw [ioRound_ok pfs rfs st n r h0] at herr ⊢
        obtain ⟨he1, htw1, hwo1, hfw1, hro1⟩ :=
          readPart_inv rfs hrfs
            { st with
                framesWritten := st.framesWritten + n / pfs,
                toWrite := st.toWrite - n / pfs,
                writeOfs := st.writeOfs + n } r hr herr
        refine ⟨he1, ?_, ?_, ?_⟩
        · rw [hwo1, htw1]
          dsimp only
          rw [hdiv, Nat.sub_mul]
          have h1 : d * pfs ≤ st.toWrite * pfs := Nat.mul_le_mul_right pfs hdle
          have h2 : pfs * d = d * pfs := Nat.mul_comm _ _
          omega
        · rw [hfw1, htw1]
          dsimp only
          rw [hdiv]
          omega
        · rw [hro1]
  · rw [ioRound_nowrite pfs rfs st w r h0] at herr ⊢
    obtain ⟨he1, htw1, hwo1, hfw1, hro1⟩ := readPart_inv rfs hrfs st r hr herr
    exact ⟨he1, by rw [hwo1, htw1], by rw [hfw1, htw1], hro1⟩

/-- Completion invariant of the retry loop: when every device response in
the trace is well formed and the loop finishes without a device error, the
pending counts are exhausted, the buffer offsets equal the originally
requested byte counts, and the frames-written counter grew by the
originally requested write frame count. -/
theorem ioLoop_inv (pfs rfs : Nat) (hpfs : 0 < pfs) (hrfs : 0 < rfs)
    (trace : List (IoRes × IoRes)) :
    ∀ st st' : IoLoopState,
      traceOK pfs rfs st trace = true →
      ioLoop pfs rfs trace st = some st' →
      st'.err = false →
      st'.toWrite = 0 ∧ st'.toRead = 0 ∧
      st'.writeOfs = st.writeOfs + st.toWrite * pfs ∧
      st'.readOfs = st.readOfs + st.toRead * rfs ∧
      st'.framesWritten = st.framesWritten + st.toWrite := by
  induction trace with
  | nil =>
      intro st st' htr hrun herr
      unfold ioLoop at hrun
      by_cases hc : 0 < st.toWrite ∨ 0 < st.toRead
      · rw [if_pos hc] at hrun
        exact absurd hrun (by simp)
      · rw [if_neg hc] at hrun
        injection hrun with h
        subst h
        have h1 : st.toWrite = 0 := by omega
        have h2 : st.toRead = 0 := by omega
        exact ⟨h1, h2, by simp [h1], by simp [h2], by simp [h1]⟩
  | cons p rest ih =>
      intro st st' htr hrun herr
      obtain ⟨w, r⟩ := p
      simp only [traceOK, Bool.and_eq_true, Bool.or_eq_true,
        decide_eq_true_eq] at htr
      obtain ⟨hw, hr, htr'⟩ := htr
      unfold ioLoop at hrun
      by_cases hc : 0 < st.toWrite ∨ 0 < st.toRead
      · rw [if_pos hc] at hrun
        dsimp only at hrun
        by_cases he : (ioRound pfs rfs st w r).err = true
        · rw [if_pos he] at hrun
          injection hrun with h
          subst h
          exact absurd herr (by simp [he])
        · have he' : (ioRound pfs rfs st w r).err = false := by
            simpa using he
          rw [if_neg he] at hrun
          obtain ⟨ht1, ht2, hwo, hro, hfw⟩ := ih _ st' htr' hrun herr
          obtain ⟨hserr, hG2, hG3, hG4⟩ :=
            ioRound_inv pfs rfs hpfs hrfs st w r hw hr he'
          refine ⟨ht1, ht2, ?_, ?_, ?_⟩
          · rw [hwo, ← hG2]
          · rw [hro, ← hG4]
          · rw [hfw, ← hG3]
      · rw [if_neg hc] at hrun
        injection hrun with h
        subst h
        have h1 : st.toWrite = 0 := by omega
        have h2 : st.toRead = 0 := by omega
        exact ⟨h1, h2, by simp [h1], by simp [h2], by simp [h1]⟩

/-- C7 counterexample: a write that transfers a byte count that is not a
multiple of the frame size (3 bytes of a 4-byte frame, then 4 more) lets
the retry loop finish without any error while having moved 7 bytes — not
the 4 bytes (1 frame × 4) originally requested — and the buffer offset
ends past the requested byte count. -/
theorem c7_counterexample :
    ioLoop 4 4 [(IoRes.ok 3, IoRes.ok 0), (IoRes.ok 4, IoRes.ok 0)]
        ⟨1, 0, 0, 0, 0, false⟩ =
      some ⟨0, 0, 7, 0, 1, false⟩ ∧ (7 : Nat) ≠ 1 * 4 := by
  decide

/-- C7 (amended): across the retry iterations of one dispatch, for each
active direction, when no write or read returns an error and every
successful transfer moves a whole number of frames (a byte count that is a
multiple of that direction's frame size, at most the bytes requested), the
total bytes written and read equal the originally requested byte counts,
the buffer offsets advance to match, and the frames-written counter is
incremented in total by the requested write frame count. -/
theorem c7_partial_io (pfs rfs k m f0 : Nat) (trace : List (IoRes × IoRes))
    (st' : IoLoopState) (hpfs : 0 < pfs) (hrfs : 0 < rfs)
    (htr : traceOK pfs rfs ⟨k, m, 0, 0, f0, false⟩ trace = true)
    (hrun : ioLoop pfs rfs trace ⟨k, m, 0, 0, f0, false⟩ = some st')
    (herr : st'.err = false) :
    st'.writeOfs = k * pfs ∧ st'.readOfs = m * rfs ∧
    st'.framesWritten = f0 + k := by
  obtain ⟨ht1, ht2, hwo, hro, hfw⟩ :=
    ioLoop_inv pfs rfs hpfs hrfs trace ⟨k, m, 0, 0, f0, false⟩ st' htr hrun
      herr
  refine ⟨?_, ?_, ?_⟩
  · rw [hwo]
    simp
  · rw [hro]
    simp
  · rw [hfw]

/-- Witness for C7 on a concrete complete, error-free, frame-aligned
trace. -/
theorem c7_partial_io_witness :
    (⟨0, 0, 8, 2, 7, false⟩ : IoLoopState).writeOfs = 2 * 4 ∧
    (⟨0, 0, 8, 2, 7, false⟩ : IoLoopState).readOfs = 1 * 2 ∧
    (⟨0, 0, 8, 2, 7, false⟩ : IoLoopState).framesWritten = 5 + 2 := by
  have h := c7_partial_io 4 2 2 1 5 [(IoRes.ok 8, IoRes.ok 2)]
    ⟨0, 0, 8, 2, 7, false⟩ (by decide) (by decide) (by decide) (by decide)
    (by decide)
  exact h

/-- C2 counterexample: a duplex stream whose callback returns 0 < 2 frames
with playback active and in which no device write ever errors (no write is
even issued) still ends in ERROR — not DRAINED, and with no DRAINED state
callback — because the record-side read fails. -/
theorem c2_counterexample :
    oss_io_routine ⟨true, true, 2, 4, 4⟩ 0
        [⟨true, some 0, [(IoRes.ok 0, IoRes.err)]⟩] =
      some (.error, 0, 0, 0, [.started, .error]) ∧
    CState.error ≠ CState.drained := by
  decide

/-- C2 (amended): for a playback-active stream whose callback returns
`k < nfr` frames, when the retry loop completes with no write or read
error and every transfer moves a whole number of frames, exactly
`k × playback frame size` bytes are written, the loop exits in DRAINED,
and the state callback fires exactly once with DRAINED, after the
flush. -/
theorem c2_drain (cfg : StreamCfg) (fw k : Nat) (it : IterInput)
    (rest : List IterInput) (st' : IoLoopState)
    (hplay : cfg.playActive = true) (hrun : it.running = true)
    (hcb : it.cbRet = some k) (hk : k < cfg.nfr)
    (hpfs : 0 < cfg.pfs) (hrfs : 0 < cfg.rfs)
    (htr : traceOK cfg.pfs cfg.rfs (initialIo cfg k fw) it.trace = true)
    (hloop : ioLoop cfg.pfs cfg.rfs it.trace (initialIo cfg k fw) = some st')
    (herr : st'.err = false) :
    oss_io_routine cfg fw (it :: rest) =
      some (.drained, fw + k, k * cfg.pfs,
        (if cfg.recActive then cfg.nfr else 0) * cfg.rfs,
        [.started, .drained]) := by
  obtain ⟨ht1, ht2, hwo, hro, hfw⟩ :=
    ioLoop_inv cfg.pfs cfg.rfs hpfs hrfs it.trace (initialIo cfg k fw) st'
      htr hloop herr
  simp only [initialIo, hplay, if_true] at hwo hro hfw
  have hstep : ioIterate cfg fw it =
      .exit .drained st'.framesWritten st'.writeOfs st'.readOfs := by
    simp [ioIterate, hrun, hplay, hcb, hloop, herr, hk]
  simp only [oss_io_routine, ioLoopSteps, hstep, Option.map_some]
  simp only [hwo, hro, hfw]
  norm_num

/-- Witness for C2 on a concrete playback-only stream draining after one
produced frame. -/
theorem c2_drain_witness :
    oss_io_routine ⟨true, false, 2, 4, 1⟩ 0
        [⟨true, some 1, [(IoRes.ok 4, IoRes.ok 0)]⟩] =
      some (.drained, 0 + 1, 1 * 4,
        (if (⟨true, false, 2, 4, 1⟩ : StreamCfg).recActive then 2 else 0) * 1,
        [.started, .drained]) := by
  have h := c2_drain ⟨true, false, 2, 4, 1⟩ 0 1
    ⟨true, some 1, [(IoRes.ok 4, IoRes.ok 0)]⟩ [] ⟨0, 0, 4, 0, 1, false⟩
    rfl rfl rfl (by decide) (by decide) (by decide) (by decide) (by decide)
    (by decide)
  exact h
